import Mathlib

/-!
Shallow embedding of the metalibm code-generation core slice:
`src/code_generation/complex_generator.py`,
`src/metalibm_core/code_generation/code_entity.py` and
`src/metalibm_core/targets/riscv/riscv.py`.
Collaborators that the slice imports but that are not part of the sources
(ml_operations.py, ml_formats.py, generator_utility.py, code_object.py,
attributes.py, log_report.py, abstract_backend.py) are modelled from the
specification, each marked as such in its doc comment.
-/

namespace Metalibm

/-- Python str.join: concatenates a list of strings with the separator
between consecutive elements (empty string on the empty list). -/
def strJoin (sep : String) : List String → String
  | [] => ""
  | [x] => x
  | x :: y :: t => x ++ sep ++ strJoin sep (y :: t)

/-- Lookup in an association list, mirroring Python dict access. -/
def assocLookup {α β : Type} [DecidableEq α] : List (α × β) → α → Option β
  | [], _ => none
  | (k0, v) :: rest, k => if k0 = k then some v else assocLookup rest k

/-- Insert or assign in an association list, mirroring Python dict
assignment: an existing key keeps its position and receives the new value,
a new key is appended at the end (Python dicts preserve insertion order). -/
def assocSet {α β : Type} [DecidableEq α] : List (α × β) → α → β → List (α × β)
  | [], k, v => [(k, v)]
  | (k0, v0) :: rest, k, v =>
    if k0 = k then (k, v) :: rest else (k0, v0) :: assocSet rest k v

/-- Left-to-right effectful map over a list in the Except monad, mirroring a
Python list comprehension whose element computation may raise: the first
raised error aborts the whole comprehension. -/
def mapME {α β : Type} (f : α → Except String β) : List α → Except String (List β)
  | [] => Except.ok []
  | x :: xs => do
    let y ← f x
    let ys ← mapME f xs
    Except.ok (y :: ys)

/-- Modelled from the spec: numeric formats are values carrying a
target-language code name (sections 3 and 6; ml_formats.py is not under
src/). The four formats named by riscv.py are listed explicitly and `named`
covers any other format through its code name; the concrete code strings of
the builtin formats are outside the sources and are represented by their
Python identifiers. -/
inductive MLFormat where
  | ML_Int64
  | ML_Int32
  | ML_Binary64
  | ML_Binary32
  | named (code_name : String)
deriving DecidableEq, BEq

/-- Modelled from the spec: the code name of a format in the output
language. -/
def MLFormat.get_code_name : MLFormat → String
  | .ML_Int64 => "ML_Int64"
  | .ML_Int32 => "ML_Int32"
  | .ML_Binary64 => "ML_Binary64"
  | .ML_Binary32 => "ML_Binary32"
  | .named s => s

/-- Operation kinds appearing in the sources: the node constructors used by
code_entity.py and the operation classes keyed by the riscv table. -/
inductive OpKind where
  | Variable
  | Signal
  | ReferenceAssign
  | Statement
  | NearestInteger
  | Conversion
  | SpecificOperation
deriving DecidableEq

/-- Sub-specifier values appearing in the sources (riscv.py keys the
SpecificOperation entry by SpecificOperation.ReadTimeStamp). -/
inductive OpSpecifier where
  | ReadTimeStamp
deriving DecidableEq

/-- Operation DAG node (section 3): kind, optional tag, optional
sub-specifier, optional result format and ordered operand list. The
var_type direction marker set by add_output_variable and add_output_signal
is not tracked: no claim observes it. -/
inductive Node where
  | mk (kind : OpKind) (tag : Option String) (specifier : Option OpSpecifier)
       (precision : Option MLFormat) (inputs : List Node)

def Node.kind : Node → OpKind
  | .mk k _ _ _ _ => k

def Node.get_tag : Node → Option String
  | .mk _ t _ _ _ => t

def Node.specifier : Node → Option OpSpecifier
  | .mk _ _ s _ _ => s

def Node.get_precision : Node → Option MLFormat
  | .mk _ _ _ p _ => p

def Node.inputs : Node → List Node
  | .mk _ _ _ _ i => i

/-- Python optree.get_input(i): list indexing; an absent index is an
IndexError, embedded as none. -/
def Node.get_input (n : Node) (i : Nat) : Option Node :=
  n.inputs[i]?

/-- Modelled from the spec: the Variable node constructor
(ml_operations.py is not under src/): a leaf node tagged with its name and
carrying the given format. -/
def Variable (name : String) (precision : Option MLFormat) : Node :=
  Node.mk OpKind.Variable (some name) none precision []

/-- Modelled from the spec: the Signal node constructor
(ml_hdl_operations.py is not under src/): a leaf node tagged with its name
and carrying the given format. -/
def Signal (name : String) (precision : Option MLFormat) : Node :=
  Node.mk OpKind.Signal (some name) none precision []

/-- Modelled from the spec: the ReferenceAssign node constructor
(ml_operations.py is not under src/): an assignment node whose input 0 is
the assigned port and whose input 1 is the value, exactly as read back by
get_port_from_output and get_value_from_output. -/
def ReferenceAssign (var value : Node) : Node :=
  Node.mk OpKind.ReferenceAssign none none none [var, value]

/-- Modelled from the spec: the Conversion node constructor
(ml_operations.py is not under src/): a conversion node with one operand
and the given result format, as built by lowerConversion in riscv.py. -/
def Conversion (op : Node) (precision : MLFormat) : Node :=
  Node.mk OpKind.Conversion none none (some precision) [op]

/-- Modelled from the spec: the Statement node constructor
(ml_operations.py is not under src/): a composite statement node over the
given operations, as built by get_scheme in code_entity.py. -/
def Statement (ops : List Node) : Node :=
  Node.mk OpKind.Statement none none none ops

/-- Outcome of one generate_expr call. RewriteChainExhausted is the error
the specification assigns to an exhausted rewrite chain (section 7);
attributeError stands for a Python AttributeError raised downstream. -/
inductive GenError where
  | RewriteChainExhausted
  | attributeError (msg : String)
deriving DecidableEq

/-- Result of a generation call: a generated expression reference or a
fatal error. -/
inductive GenResult where
  | ref (r : String)
  | error (e : GenError)
deriving DecidableEq

/-- Operator template: asmInline summarises AsmInlineOperator
(generator_utility.py, not under src/) by its rendered template text and
fixed arity; complexOp is the ComplexOperator of
src/code_generation/complex_generator.py with its optree_modifier and
optional backup_operator. -/
inductive CGOperator where
  | asmInline (template : String) (arity : Nat)
  | complexOp (optree_modifier : Node → Option Node)
              (backup_operator : Option CGOperator)

/-- ComplexOperator.generate_expr from
src/code_generation/complex_generator.py: run the modifier on the optree;
if it returned None and a backup operator is configured, delegate to the
backup operator on the original optree and argument tuple; otherwise hand
whatever the modifier returned (including None) to
code_generator.generate_expr. The two collaborators that are not under
src/ are passed as parameters: baseGen stands for the generate_expr of a
non-complex operator template and engine for code_generator.generate_expr;
the code_object is forwarded unchanged to both callees in the source, so it
stays implicit in those parameters. -/
def CGOperator.generate_expr
    (baseGen : String → Nat → Node → List Node → GenResult)
    (engine : Option Node → GenResult) :
    CGOperator → Node → List Node → GenResult
  | .asmInline template arity, optree, arg_tuple =>
    baseGen template arity optree arg_tuple
  | .complexOp optree_modifier backup_operator, optree, arg_tuple =>
    let new_optree := optree_modifier optree
    match new_optree, backup_operator with
    | none, some backup => backup.generate_expr baseGen engine optree arg_tuple
    | _, _ => engine new_optree

/-- lowerConversion from src/metalibm_core/targets/riscv/riscv.py: expand a
conversion into a conversion from the input of conv to intFormat and then
to targetFormat. In Python the inner get_input(0) raises on a node without
operands; that case surfaces here as none. -/
def lowerConversion (intFormat targetFormat : MLFormat) (conv : Node) : Option Node :=
  (conv.get_input 0).map
    (fun op => Conversion (Conversion op intFormat) targetFormat)

/-- rdcycleOperator from riscv.py: inline assembly reading the cycle
counter, arity 0. -/
def rdcycleOperator : CGOperator :=
  CGOperator.asmInline
    "\x7b\n    unsigned long cycles;\n    asm volatile (\"rdcycle %%0 \" : \"=r\" (cycles));\n    %s = cycles;\n\x7d"
    0

/-- RV_singleOpAsmTemplate from riscv.py, with the regDst and regSrc
parameters written explicitly (their Python defaults are r and f). -/
def RV_singleOpAsmTemplate (insn regDst regSrc : String) : CGOperator :=
  CGOperator.asmInline
    ("asm volatile (\"" ++ insn ++ " %%0, %%1 \" : \"=" ++ regDst ++
      "\" (%s) : \"" ++ regSrc ++ "\"(%s));\n")
    1

/-- Modelled from the spec: type_strict_match (generator_utility.py is not
under src/) builds the exact-match type-signature predicate of section 4.1:
it accepts exactly the tuple whose entries are the given formats, result
format first, then operand formats. -/
def type_strict_match (format_list : List MLFormat)
    (fmt_tuple : List (Option MLFormat)) : Bool :=
  fmt_tuple == format_list.map some

/-- Format tuple of a node: result format followed by the operand
formats. -/
def fmtTuple (optree : Node) : List (Option MLFormat) :=
  optree.get_precision :: optree.inputs.map Node.get_precision

/-- Innermost dispatch level: ordered exact type signatures and their
operator templates. -/
def SignatureMap : Type :=
  List ((List (Option MLFormat) → Bool) × CGOperator)

/-- Middle dispatch level: ordered shape predicates and their signature
maps. -/
def ShapeEntryList : Type :=
  List ((Node → Bool) × SignatureMap)

/-- Four-level dispatch table of section 3: kind, then sub-specifier (None
acting as wildcard), then shape predicates, then type signatures. -/
def CodeGenTable : Type :=
  List (OpKind × List (Option OpSpecifier × ShapeEntryList))

/-- Modelled from the spec: operator resolution of section 4.1
(abstract_backend.py and generator_utility.py are not under src/): look up
the kind, then the sub-specifier falling back to the wildcard (None) entry,
then the first shape predicate accepting the node, then the first
type-signature predicate accepting the format tuple. -/
def resolve (table : CodeGenTable) (optree : Node) : Option CGOperator :=
  match assocLookup table optree.kind with
  | none => none
  | some specMap =>
    match (assocLookup specMap optree.specifier).orElse
        (fun _ => assocLookup specMap none) with
    | none => none
    | some entryList =>
      match entryList.find? (fun entry => entry.1 optree) with
      | none => none
      | some entry =>
        match entry.2.find? (fun sigEntry => sigEntry.1 (fmtTuple optree)) with
        | none => none
        | some sigEntry => some sigEntry.2

/-- rv64CCodeGenTable from riscv.py in the four-level shape: the
SpecificOperation.ReadTimeStamp entry and the NearestInteger entry keyed by
None, each with a trivially-true shape predicate and its ordered exact type
signatures. -/
def rv64CCodeGenTable : CodeGenTable := [
  (OpKind.SpecificOperation, [
    (some OpSpecifier.ReadTimeStamp, [
      (fun _ => true, [
        (type_strict_match [MLFormat.ML_Int64], rdcycleOperator)
      ])
    ])
  ]),
  (OpKind.NearestInteger, [
    (none, [
      (fun _ => true, [
        (type_strict_match [MLFormat.ML_Int32, MLFormat.ML_Binary32],
          RV_singleOpAsmTemplate "fcvt.w.s" "r" "f"),
        (type_strict_match [MLFormat.ML_Binary32, MLFormat.ML_Binary32],
          CGOperator.complexOp
            (lowerConversion MLFormat.ML_Int32 MLFormat.ML_Binary32) none),
        (type_strict_match [MLFormat.ML_Int64, MLFormat.ML_Binary64],
          RV_singleOpAsmTemplate "fcvt.l.d" "r" "f"),
        (type_strict_match [MLFormat.ML_Int32, MLFormat.ML_Binary64],
          CGOperator.complexOp
            (lowerConversion MLFormat.ML_Int64 MLFormat.ML_Int32) none),
        (type_strict_match [MLFormat.ML_Binary64, MLFormat.ML_Binary64],
          CGOperator.complexOp
            (lowerConversion MLFormat.ML_Int64 MLFormat.ML_Binary64) none)
      ])
    ])
  ])
]

/-- Modelled from the spec: the scoped code object of section 4.4
(code_object.py is not under src/): accumulated emitted text, the
idempotent ordered set of required headers and the current nesting level.
Indentation rendering is not tracked. -/
structure CodeObject where
  text : String
  headers : List String
  level : Nat
deriving DecidableEq

/-- Modelled from the spec: a fresh NestedCode buffer (code_object.py is
not under src/). -/
def NestedCode_init : CodeObject :=
  { text := "", headers := [], level := 0 }

/-- Modelled from the spec: emit appends to the output (the << operator of
NestedCode; code_object.py is not under src/). -/
def CodeObject.emit (co : CodeObject) (s : String) : CodeObject :=
  { co with text := co.text ++ s }

/-- Modelled from the spec: requireHeader is idempotent set insertion
(section 4.4; code_object.py is not under src/). -/
def CodeObject.add_local_header (co : CodeObject) (h : String) : CodeObject :=
  if h ∈ co.headers then co else { co with headers := co.headers ++ [h] }

/-- Modelled from the spec: openScope (section 4.4); the inc flag of the
source only affects indentation, which is not tracked. -/
def CodeObject.open_level (co : CodeObject) (_inc : Bool) : CodeObject :=
  { co with level := co.level + 1 }

/-- Modelled from the spec: closeScope (section 4.4). -/
def CodeObject.close_level (co : CodeObject) (_inc : Bool) : CodeObject :=
  { co with level := co.level - 1 }

/-- CodeEntity from src/metalibm_core/code_generation/code_entity.py.
arg_map keys are node tags, which may be Python None; output_map maps an
output name to its ReferenceAssign node. init_stage_default mirrors the
default value of the dynamic init_stage attribute registered by __init__
(attributes.py is not under src/; the process-wide registry is scoped to
the entity here). The language, code_object, entity_object, entity_operator
and component_object fields play no part in any claim and are not
tracked. -/
structure CodeEntity where
  name : String
  arg_list : List Node
  arg_map : List (Option String × Node)
  output_map : List (String × Node)
  process_list : List Node
  current_stage : Nat
  init_stage_default : Nat

/-- CodeEntity.__init__ with no pre-supplied arguments: empty interface and
body, stage counter 0, init_stage attribute default 0. -/
def CodeEntity.init (name : String) : CodeEntity :=
  { name := name, arg_list := [], arg_map := [], output_map := [],
    process_list := [], current_stage := 0, init_stage_default := 0 }

def CodeEntity.get_name (self : CodeEntity) : String :=
  self.name

/-- CodeEntity.add_input_variable: build a Variable, append it to arg_list,
assign it in arg_map and return it. -/
def CodeEntity.add_input_variable (self : CodeEntity) (name : String)
    (vartype : MLFormat) : Node × CodeEntity :=
  let input_var := Variable name (some vartype)
  (input_var,
   { self with arg_list := self.arg_list ++ [input_var],
               arg_map := assocSet self.arg_map (some name) input_var })

/-- CodeEntity.add_input_signal: build a Signal, append it to arg_list,
assign it in arg_map and return it. -/
def CodeEntity.add_input_signal (self : CodeEntity) (name : String)
    (signaltype : MLFormat) : Node × CodeEntity :=
  let input_signal := Signal name (some signaltype)
  (input_signal,
   { self with arg_list := self.arg_list ++ [input_signal],
               arg_map := assocSet self.arg_map (some name) input_signal })

/-- CodeEntity.add_output_variable: build the output Variable with the
format of the value node and the ReferenceAssign binding it, then register
the assignment under the name. Log.report(Log.error, ...) (log_report.py is
not under src/) is modelled from the spec as fatal (section 7), so on a
pre-existing name the call raises and the map is left untouched. -/
def CodeEntity.add_output_variable (self : CodeEntity) (name : String)
    (output_node : Node) : Except String CodeEntity :=
  let output_var := Variable name output_node.get_precision
  let output_assign := ReferenceAssign output_var output_node
  if (assocLookup self.output_map name).isSome then
    Except.error ("pre-existing name " ++ name ++ " in output_map")
  else
    Except.ok { self with
      output_map := assocSet self.output_map name output_assign }

/-- CodeEntity.add_output_signal: identical to add_output_variable with a
Signal port node. -/
def CodeEntity.add_output_signal (self : CodeEntity) (name : String)
    (output_node : Node) : Except String CodeEntity :=
  let output_var := Signal name output_node.get_precision
  let output_assign := ReferenceAssign output_var output_node
  if (assocLookup self.output_map name).isSome then
    Except.error ("pre-existing name " ++ name ++ " in output_map")
  else
    Except.ok { self with
      output_map := assocSet self.output_map name output_assign }

/-- CodeEntity.get_input_by_tag: arg_map lookup, None on a missing tag. -/
def CodeEntity.get_input_by_tag (self : CodeEntity) (tag : Option String) :
    Option Node :=
  assocLookup self.arg_map tag

/-- CodeEntity.get_port_from_output: input 0 of an output assignment. -/
def CodeEntity.get_port_from_output (out : Node) : Option Node :=
  out.get_input 0

/-- CodeEntity.get_value_from_output: input 1 of an output assignment. -/
def CodeEntity.get_value_from_output (out : Node) : Option Node :=
  out.get_input 1

/-- CodeEntity.get_output_assign: the values of output_map in insertion
order. -/
def CodeEntity.get_output_assign (self : CodeEntity) : List Node :=
  self.output_map.map (fun p => p.2)

/-- CodeEntity.get_current_stage. -/
def CodeEntity.get_current_stage (self : CodeEntity) : Nat :=
  self.current_stage

/-- CodeEntity.set_current_stage: set the counter and keep the default of
the init_stage attribute in step with it. -/
def CodeEntity.set_current_stage (self : CodeEntity) (stage_id : Nat) :
    CodeEntity :=
  { self with current_stage := stage_id, init_stage_default := stage_id }

/-- CodeEntity.start_new_stage. -/
def CodeEntity.start_new_stage (self : CodeEntity) : CodeEntity :=
  self.set_current_stage (self.current_stage + 1)

/-- CodeEntity.add_process. -/
def CodeEntity.add_process (self : CodeEntity) (new_process : Node) :
    CodeEntity :=
  { self with process_list := self.process_list ++ [new_process] }

/-- CodeEntity.get_output_precision: asserts the node is a ReferenceAssign,
reads its port (input 0) and value (input 1); the format is the value
format when the port format is None, else the port format. Structural
failures (failed assert, missing input) are embedded as errors. -/
def CodeEntity.get_output_precision (output : Node) :
    Except String (Option MLFormat) :=
  if output.kind ≠ OpKind.ReferenceAssign then Except.error "AssertionError"
  else
    match output.get_input 0, output.get_input 1 with
    | some out_signal, some out_value =>
      if out_signal.get_precision = none then Except.ok out_value.get_precision
      else Except.ok out_signal.get_precision
    | _, _ => Except.error "IndexError"

/-- Python string interpolation of a value that may be None. -/
def pyStr : Option String → String
  | some s => s
  | none => "None"

/-- Python fmt.get_code_name() on a value that may be None: attribute
access on None raises. -/
def optCodeName : Option MLFormat → Except String String
  | some f => Except.ok f.get_code_name
  | none => Except.error "AttributeError: NoneType has no attribute get_code_name"

/-- Input port lines of get_declaration and of get_component_declaration
(the two sources compute the identical comprehension): one line per element
of arg_list. -/
def CodeEntity.input_port_lines (self : CodeEntity) :
    Except String (List String) :=
  mapME (fun inp => do
    let code ← optCodeName inp.get_precision
    Except.ok (pyStr inp.get_tag ++ " : in " ++ code)) self.arg_list

/-- Output port lines of get_declaration: the port tag with the format
obtained through get_output_precision. -/
def CodeEntity.decl_output_port_lines (self : CodeEntity) :
    Except String (List String) :=
  mapME (fun out => do
    let port ← match CodeEntity.get_port_from_output out with
               | some p => Except.ok p
               | none => Except.error "IndexError"
    let prec ← CodeEntity.get_output_precision out
    let code ← optCodeName prec
    Except.ok (pyStr port.get_tag ++ " : out " ++ code)) self.get_output_assign

/-- Output port lines of get_component_declaration: the port tag with the
format read directly off the port node. -/
def CodeEntity.comp_output_port_lines (self : CodeEntity) :
    Except String (List String) :=
  mapME (fun out => do
    let port ← match CodeEntity.get_port_from_output out with
               | some p => Except.ok p
               | none => Except.error "IndexError"
    let code ← optCodeName port.get_precision
    Except.ok (pyStr port.get_tag ++ " : out " ++ code)) self.get_output_assign

/-- Port description computed by get_declaration: the joined input and
output lines wrapped in a port clause, replaced by the empty string when
the joined text has length zero. -/
def CodeEntity.decl_port_desc (self : CodeEntity) : Except String String := do
  let input_port_list ← self.input_port_lines
  let output_port_list ← self.decl_output_port_lines
  let port_format_list := strJoin ";\n  " (input_port_list ++ output_port_list)
  let port_desc := "port (\n  " ++ port_format_list ++ "\n);"
  Except.ok (if port_format_list.length = 0 then "" else port_desc)

/-- Port description computed by get_component_declaration. -/
def CodeEntity.comp_port_desc (self : CodeEntity) : Except String String := do
  let input_port_list ← self.input_port_lines
  let output_port_list ← self.comp_output_port_lines
  let port_format_list := strJoin ";\n  " (input_port_list ++ output_port_list)
  let port_desc := "port (\n  " ++ port_format_list ++ "\n);"
  Except.ok (if port_format_list.length = 0 then "" else port_desc)

/-- CodeEntity.get_declaration (the final and language parameters of the
source only select the code names of the formats, which the format model
already carries). -/
def CodeEntity.get_declaration (self : CodeEntity) : Except String String := do
  let port_desc ← self.decl_port_desc
  Except.ok ("entity " ++ self.name ++ " is \n" ++ port_desc ++
    "\nend " ++ self.name ++ ";\n\n")

/-- CodeEntity.get_component_declaration. -/
def CodeEntity.get_component_declaration (self : CodeEntity) :
    Except String String := do
  let port_desc ← self.comp_port_desc
  Except.ok ("component " ++ self.name ++ " \n" ++ port_desc ++
    "\nend component;\n\n")

/-- CodeEntity.get_scheme: one Statement node holding the processes
followed by all output assignments. -/
def CodeEntity.get_scheme (self : CodeEntity) : Node :=
  Statement (self.process_list ++ self.get_output_assign)

/-- CodeEntity.get_definition. The code generator is passed as the effect
of code_generator.generate_expr on the code object (code_generator.py is
not under src/); the folded, initial, language and static_cst plumbing is
not tracked. -/
def CodeEntity.get_definition (self : CodeEntity)
    (gen : CodeObject → Node → CodeObject) : Except String CodeObject := do
  let code_object := NestedCode_init
  let code_object := code_object.add_local_header "ieee.std_logic_1164.all"
  let code_object := code_object.add_local_header "ieee.std_logic_unsigned.all"
  let code_object := code_object.add_local_header "ieee.numeric_std.all"
  let decl ← self.get_declaration
  let code_object := code_object.emit decl
  let code_object := code_object.open_level false
  let code_object := gen code_object self.get_scheme
  let code_object := code_object.close_level false
  Except.ok code_object

/-- CodeEntity.add_definition: same generation as get_definition but into
the caller-supplied code object, with the declaration, an architecture
header and the end architecture trailer emitted around the body. -/
def CodeEntity.add_definition (self : CodeEntity)
    (gen : CodeObject → Node → CodeObject) (code_object : CodeObject) :
    Except String CodeObject := do
  let decl ← self.get_declaration
  let code_object := code_object.emit decl
  let code_object := code_object.emit
    ("architecture rtl of " ++ self.name ++ " is\n")
  let code_object := code_object.open_level true
  let code_object := gen code_object self.get_scheme
  let code_object := code_object.close_level true
  let code_object := code_object.emit "end architecture;\n"
  Except.ok code_object

/-- Construction-time operations of an entity, as listed by the
specification in section 4.5: port and process registration and
startNewStage. -/
inductive ConstructionOp where
  | addInputVariable (name : String) (vartype : MLFormat)
  | addInputSignal (name : String) (signaltype : MLFormat)
  | addOutputVariable (name : String) (value : Node)
  | addOutputSignal (name : String) (value : Node)
  | addProcess (p : Node)
  | startNewStage

/-- Modelled from the spec: an entity under construction together with the
init_stage tags given to the nodes created so far. Every node created
while a stage is active is tagged with that stage through the default of
the init_stage attribute (attributes.py is not under src/); createdTags
records, in creation order, the tag each created node received. -/
structure EntityTrace where
  entity : CodeEntity
  createdTags : List Nat

/-- Modelled from the spec: apply one construction operation. The node
constructors run before any duplicate check in the source, so an
add-output operation records its two created nodes (port and assignment)
even when the registration itself fails; a failed registration leaves the
entity unchanged (the error is fatal in the source). -/
def applyOp (s : EntityTrace) : ConstructionOp → EntityTrace
  | .addInputVariable name vartype =>
    { entity := (s.entity.add_input_variable name vartype).2,
      createdTags := s.createdTags ++ [s.entity.init_stage_default] }
  | .addInputSignal name signaltype =>
    { entity := (s.entity.add_input_signal name signaltype).2,
      createdTags := s.createdTags ++ [s.entity.init_stage_default] }
  | .addOutputVariable name value =>
    { entity := match s.entity.add_output_variable name value with
                | Except.ok e2 => e2
                | Except.error _ => s.entity,
      createdTags := s.createdTags ++
        [s.entity.init_stage_default, s.entity.init_stage_default] }
  | .addOutputSignal name value =>
    { entity := match s.entity.add_output_signal name value with
                | Except.ok e2 => e2
                | Except.error _ => s.entity,
      createdTags := s.createdTags ++
        [s.entity.init_stage_default, s.entity.init_stage_default] }
  | .addProcess p =>
    { entity := s.entity.add_process p, createdTags := s.createdTags }
  | .startNewStage =>
    { entity := s.entity.start_new_stage, createdTags := s.createdTags }

/-- Run a construction trace from a freshly initialised entity. -/
def runOps (name : String) (ops : List ConstructionOp) : EntityTrace :=
  ops.foldl applyOp { entity := CodeEntity.init name, createdTags := [] }

/-- Number of startNewStage operations in a trace. -/
def countStages : List ConstructionOp → Nat
  | [] => 0
  | ConstructionOp.startNewStage :: rest => countStages rest + 1
  | _ :: rest => countStages rest

/-- Expected init_stage tags of the nodes created along a trace, given the
stage active at its start: one tag per created node, equal to the stage
active at the moment of creation. -/
def tagsSpec : List ConstructionOp → Nat → List Nat
  | [], _ => []
  | ConstructionOp.addInputVariable _ _ :: rest, st => st :: tagsSpec rest st
  | ConstructionOp.addInputSignal _ _ :: rest, st => st :: tagsSpec rest st
  | ConstructionOp.addOutputVariable _ _ :: rest, st =>
    st :: st :: tagsSpec rest st
  | ConstructionOp.addOutputSignal _ _ :: rest, st =>
    st :: st :: tagsSpec rest st
  | ConstructionOp.addProcess _ :: rest, st => tagsSpec rest st
  | ConstructionOp.startNewStage :: rest, st => tagsSpec rest (st + 1)

/-- An input port line as the specification words it: name, then the in
direction, then the format code. -/
def mkInLine (p : String × String) : String :=
  p.1 ++ " : in " ++ p.2

/-- An output port line as the specification words it: name, then the out
direction, then the format code. -/
def mkOutLine (p : String × String) : String :=
  p.1 ++ " : out " ++ p.2

/-- Declaration text in the exact shape the specification gives for it: a
port block that is empty exactly when there is no input and no output
port, and otherwise wraps one in-line per input followed by one out-line
per output, joined by a semicolon separator. -/
def declarationSpec (name : String)
    (inputPorts outputPorts : List (String × String)) : String :=
  let portBlock :=
    if inputPorts = [] ∧ outputPorts = [] then ""
    else "port (\n  " ++
      strJoin ";\n  " (inputPorts.map mkInLine ++ outputPorts.map mkOutLine) ++
      "\n);"
  "entity " ++ name ++ " is \n" ++ portBlock ++ "\nend " ++ name ++ ";\n\n"

/-- Name and format code of each input port, read off arg_list the same way
the declaration does. -/
def CodeEntity.inputPortData (self : CodeEntity) :
    Except String (List (String × String)) :=
  mapME (fun inp => do
    let code ← optCodeName inp.get_precision
    Except.ok (pyStr inp.get_tag, code)) self.arg_list

/-- Name and format code of each output port, read off the output
assignments the same way get_declaration does. -/
def CodeEntity.declOutputPortData (self : CodeEntity) :
    Except String (List (String × String)) :=
  mapME (fun out => do
    let port ← match CodeEntity.get_port_from_output out with
               | some p => Except.ok p
               | none => Except.error "IndexError"
    let prec ← CodeEntity.get_output_precision out
    let code ← optCodeName prec
    Except.ok (pyStr port.get_tag, code)) self.get_output_assign

/-- Well-formedness of a registered output assignment: it is a
ReferenceAssign with a port and a value, and its port only lacks a format
when the value lacks one too. Every output registered through
add_output_variable or add_output_signal satisfies this, because those
constructors copy the value format onto the port. -/
def outputWellFormed (out : Node) : Prop :=
  out.kind = OpKind.ReferenceAssign ∧
  ∃ p v, out.get_input 0 = some p ∧ out.get_input 1 = some v ∧
    (p.get_precision = none → v.get_precision = none)

/-- Suffix test over the character lists of two strings. -/
def strEndsWith (s suffix : String) : Bool :=
  suffix.data.isSuffixOf s.data

/-- Head test over the character lists of two strings. -/
def strStartsWith (s pre : String) : Bool :=
  pre.data.isPrefixOf s.data

/-- A sample leaf node used by witnesses. -/
def sampleNode : Node := Variable "x" (some MLFormat.ML_Binary64)

/-- A concrete stand-in for the generate_expr of a non-complex template,
used by witnesses: it always yields the reference base. -/
def stubBaseGen : String → Nat → Node → List Node → GenResult :=
  fun _ _ _ _ => GenResult.ref "base"

/-- A concrete engine used by witnesses and counterexamples. On a Python
None optree the real code_generator.generate_expr (code_generator.py, not
under src/) fails by attribute access on None before reaching any metalibm
error path; on an actual node it yields a reference. -/
def pyEngine : Option Node → GenResult
  | none => GenResult.error (GenError.attributeError "NoneType object has no attribute")
  | some _ => GenResult.ref "generated"

/-- An entity with no ports, as in the empty-ports scenario of the
specification. -/
def fooEntity : CodeEntity := CodeEntity.init "foo"

/-- The adder entity of the port-declaration scenario: inputs a and b of
format F32 and an output s carrying an F32 value. -/
def adderEntity : CodeEntity :=
  let e0 := CodeEntity.init "adder"
  let e1 := (e0.add_input_variable "a" (MLFormat.named "F32")).2
  let e2 := (e1.add_input_variable "b" (MLFormat.named "F32")).2
  match e2.add_output_signal "s" (Signal "result" (some (MLFormat.named "F32"))) with
  | Except.ok e3 => e3
  | Except.error _ => e2

/-- A concrete body generator used by witnesses and counterexamples: it
emits one signal assignment into the code object. -/
def bodyGen : CodeObject → Node → CodeObject :=
  fun co _ => co.emit "sig_o <= sig_i;\n"

/-- A concrete caller-owned code object with pre-existing content. -/
def callerCo : CodeObject :=
  { text := "PRE\n", headers := ["work.pkg.all"], level := 2 }

theorem assocLookup_assocSet_self {α β : Type} [DecidableEq α]
    (m : List (α × β)) (k : α) (v : β) :
    assocLookup (assocSet m k v) k = some v := by
  induction m with
  | nil => simp [assocSet, assocLookup]
  | cons hd tl ih =>
    obtain ⟨k0, v0⟩ := hd
    by_cases h : k0 = k
    · subst h
      simp [assocSet, assocLookup]
    · simp [assocSet, assocLookup, h, ih]

theorem mapME_append {α β : Type} (f : α → Except String β) (l1 l2 : List α) :
    mapME f (l1 ++ l2) =
      (mapME f l1).bind
        (fun a => (mapME f l2).bind (fun b => Except.ok (a ++ b))) := by
  induction l1 with
  | nil =>
    cases h2 : mapME f l2 <;> simp [mapME, h2, Except.bind]
  | cons x xs ih =>
    simp only [List.cons_append, mapME, ih]
    cases hx : f x <;> cases h1 : mapME f xs <;> cases h2 : mapME f l2 <;>
      simp [hx, h1, h2, ih, Except.bind, Bind.bind]

theorem mapME_congr {α β : Type} {f g : α → Except String β} :
    ∀ {l : List α}, (∀ x ∈ l, f x = g x) → mapME f l = mapME g l := by
  intro l
  induction l with
  | nil => intro _; rfl
  | cons x xs ih =>
    intro h
    have hx : f x = g x := h x (by simp)
    have hrest := ih (fun y hy => h y (by simp [hy]))
    simp [mapME, hx, hrest]

theorem mapME_map {α β γ : Type} (g : α → Except String β) (h : β → γ)
    (l : List α) :
    mapME (fun x => (g x).map h) l = (mapME g l).map (List.map h) := by
  induction l with
  | nil => rfl
  | cons x xs ih =>
    simp only [mapME, ih]
    cases hx : g x <;> cases h1 : mapME g xs <;>
      simp [hx, h1, Except.map, Bind.bind, Except.bind]

theorem strJoin_cons_length_pos (sep x : String) (xs : List String)
    (hx : 0 < x.length) : 0 < (strJoin sep (x :: xs)).length := by
  cases xs with
  | nil => simpa [strJoin] using hx
  | cons y t =>
    simp [strJoin, String.length_append]
    omega

theorem input_port_lines_eq_data (e : CodeEntity) :
    e.input_port_lines = (e.inputPortData).map (List.map mkInLine) := by
  unfold CodeEntity.input_port_lines CodeEntity.inputPortData
  rw [← mapME_map]
  apply mapME_congr
  intro inp _
  cases hc : optCodeName inp.get_precision <;>
    simp [hc, Except.map, Bind.bind, Except.bind, mkInLine]

theorem decl_output_port_lines_eq_data (e : CodeEntity) :
    e.decl_output_port_lines = (e.declOutputPortData).map (List.map mkOutLine) := by
  unfold CodeEntity.decl_output_port_lines CodeEntity.declOutputPortData
  rw [← mapME_map]
  apply mapME_congr
  intro out _
  cases hp : CodeEntity.get_port_from_output out with
  | none => simp [hp, Except.map, Bind.bind, Except.bind]
  | some p =>
    cases hq : CodeEntity.get_output_precision out with
    | error msg => simp [hp, hq, Except.map, Bind.bind, Except.bind]
    | ok prec =>
      cases hc : optCodeName prec <;>
        simp [hp, hq, hc, Except.map, Bind.bind, Except.bind, mkOutLine]

theorem get_declaration_matches_spec_aux (e : CodeEntity)
    (ins outs : List (String × String))
    (hin : e.inputPortData = Except.ok ins)
    (hout : e.declOutputPortData = Except.ok outs) :
    e.decl_port_desc = Except.ok (
      if ins = [] ∧ outs = [] then ""
      else "port (\n  " ++
        strJoin ";\n  " (ins.map mkInLine ++ outs.map mkOutLine) ++ "\n);") := by
  have h1 : e.input_port_lines = Except.ok (ins.map mkInLine) := by
    rw [input_port_lines_eq_data, hin]; rfl
  have h2 : e.decl_output_port_lines = Except.ok (outs.map mkOutLine) := by
    rw [decl_output_port_lines_eq_data, hout]; rfl
  unfold CodeEntity.decl_port_desc
  simp only [h1, h2, Bind.bind, Except.bind]
  congr 1
  rcases ins with _ | ⟨i0, irest⟩
  · rcases outs with _ | ⟨o0, orest⟩
    · simp [strJoin]
    · have hpos : 0 < (strJoin ";\n  "
          (List.map mkInLine [] ++ List.map mkOutLine (o0 :: orest))).length := by
        simp only [List.map_nil, List.nil_append, List.map_cons]
        refine strJoin_cons_length_pos _ _ _ ?_
        have h7 : (" : out ").length = 7 := rfl
        simp [mkOutLine, String.length_append]
        omega
      rw [if_neg (by omega), if_neg (by simp)]
  · have hpos : 0 < (strJoin ";\n  "
        (List.map mkInLine (i0 :: irest) ++ List.map mkOutLine outs)).length := by
      simp only [List.map_cons, List.cons_append]
      refine strJoin_cons_length_pos _ _ _ ?_
      have h6 : (" : in ").length = 6 := rfl
      simp [mkInLine, String.length_append]
      omega
    rw [if_neg (by omega), if_neg (by simp)]

/-- C2: for every entity whose input ports resolve to the name/format pairs
ins and whose output ports resolve to outs, the declaration text is exactly
the specified template: entity header, a port block that is empty when the
entity has no input and no output port and otherwise holds one in-line per
input followed by one out-line per output joined by the semicolon
separator, and the entity footer. -/
theorem get_declaration_matches_spec (e : CodeEntity)
    (ins outs : List (String × String))
    (hin : e.inputPortData = Except.ok ins)
    (hout : e.declOutputPortData = Except.ok outs) :
    e.get_declaration = Except.ok (declarationSpec e.name ins outs) := by
  have hpd := get_declaration_matches_spec_aux e ins outs hin hout
  unfold CodeEntity.get_declaration declarationSpec
  simp only [hpd, Bind.bind, Except.bind]

/-- C2 witness: the empty entity foo renders with an empty port block
exactly as the specification spells it, and the adder scenario renders its
two inputs and one output. -/
theorem get_declaration_matches_spec_witness :
    fooEntity.inputPortData = Except.ok [] ∧
    fooEntity.declOutputPortData = Except.ok [] ∧
    fooEntity.get_declaration = Except.ok "entity foo is \n\nend foo;\n\n" ∧
    adderEntity.inputPortData = Except.ok [("a", "F32"), ("b", "F32")] ∧
    adderEntity.declOutputPortData = Except.ok [("s", "F32")] ∧
    adderEntity.get_declaration = Except.ok
      "entity adder is \nport (\n  a : in F32;\n  b : in F32;\n  s : out F32\n);\nend adder;\n\n" := by
  refine ⟨rfl, rfl, ?_, rfl, rfl, ?_⟩
  · exact get_declaration_matches_spec fooEntity [] [] rfl rfl
  · exact get_declaration_matches_spec adderEntity
      [("a", "F32"), ("b", "F32")] [("s", "F32")] rfl rfl

theorem comp_output_port_lines_eq (e : CodeEntity)
    (H : ∀ out ∈ e.get_output_assign, outputWellFormed out) :
    e.comp_output_port_lines = e.decl_output_port_lines := by
  unfold CodeEntity.comp_output_port_lines CodeEntity.decl_output_port_lines
  apply mapME_congr
  intro out hout
  obtain ⟨hk, p, v, hp, hv, himp⟩ := H out hout
  have hgop : CodeEntity.get_port_from_output out = some p := hp
  have hprec : CodeEntity.get_output_precision out = Except.ok p.get_precision := by
    unfold CodeEntity.get_output_precision
    rw [if_neg (by simp [hk])]
    simp only [hp, hv]
    cases hpp : p.get_precision with
    | none => simp [himp hpp]
    | some f => simp
  simp [hgop, hprec, Bind.bind, Except.bind]

/-- C7: for every entity whose registered outputs are well formed (as every
output registered through add_output_variable or add_output_signal is), the
component declaration computes the same port block as the entity
declaration and the two texts differ only in the wrapper around that port
block. -/
theorem get_component_declaration_matches_entity (e : CodeEntity)
    (H : ∀ out ∈ e.get_output_assign, outputWellFormed out) :
    e.comp_port_desc = e.decl_port_desc ∧
    ∀ pb, e.decl_port_desc = Except.ok pb →
      e.get_declaration = Except.ok
        ("entity " ++ e.name ++ " is \n" ++ pb ++ "\nend " ++ e.name ++ ";\n\n") ∧
      e.get_component_declaration = Except.ok
        ("component " ++ e.name ++ " \n" ++ pb ++ "\nend component;\n\n") := by
  have hpdesc : e.comp_port_desc = e.decl_port_desc := by
    unfold CodeEntity.comp_port_desc CodeEntity.decl_port_desc
    simp only [comp_output_port_lines_eq e H]
  refine ⟨hpdesc, ?_⟩
  intro pb hpb
  constructor
  · unfold CodeEntity.get_declaration
    simp [hpb, Bind.bind, Except.bind]
  · unfold CodeEntity.get_component_declaration
    simp [hpdesc, hpb, Bind.bind, Except.bind]

/-- C7 witness: on the adder entity the port blocks agree and the two
declarations are the same text up to the wrapper. -/
theorem get_component_declaration_matches_entity_witness :
    (∀ out ∈ adderEntity.get_output_assign, outputWellFormed out) ∧
    adderEntity.decl_port_desc =
      Except.ok "port (\n  a : in F32;\n  b : in F32;\n  s : out F32\n);" ∧
    adderEntity.comp_port_desc = adderEntity.decl_port_desc ∧
    adderEntity.get_declaration = Except.ok
      "entity adder is \nport (\n  a : in F32;\n  b : in F32;\n  s : out F32\n);\nend adder;\n\n" ∧
    adderEntity.get_component_declaration = Except.ok
      "component adder \nport (\n  a : in F32;\n  b : in F32;\n  s : out F32\n);\nend component;\n\n" := by
  have hlist : adderEntity.get_output_assign =
      [ReferenceAssign (Signal "s" (some (MLFormat.named "F32")))
        (Signal "result" (some (MLFormat.named "F32")))] := rfl
  have H : ∀ out ∈ adderEntity.get_output_assign, outputWellFormed out := by
    intro out hout
    rw [hlist] at hout
    simp at hout
    subst hout
    exact ⟨rfl, Signal "s" (some (MLFormat.named "F32")),
      Signal "result" (some (MLFormat.named "F32")), rfl, rfl,
      fun h => nomatch h⟩
  have hpb : adderEntity.decl_port_desc =
      Except.ok "port (\n  a : in F32;\n  b : in F32;\n  s : out F32\n);" := rfl
  obtain ⟨h1, h2⟩ := get_component_declaration_matches_entity adderEntity H
  obtain ⟨h3, h4⟩ := h2 _ hpb
  exact ⟨H, hpb, h1, h3, h4⟩

/-- The entity obtained by registering the first output s on a fresh
entity; used by the duplicate-output witness. -/
def outputWitnessEntity : CodeEntity :=
  match (CodeEntity.init "ent").add_output_variable "s"
      (Signal "v1" (some (MLFormat.named "F32"))) with
  | Except.ok e1 => e1
  | Except.error _ => CodeEntity.init "ent"

/-- C3: registering an output under a fresh name succeeds and binds the
name to the assignment of the first value; a second registration of the
same name, through add_output_variable or add_output_signal, fails with
the fatal pre-existing-name error before touching the map, so the name
stays bound to the first assignment. -/
theorem add_output_duplicate_name_fatal (e : CodeEntity) (name : String)
    (n1 n2 : Node) (e1 : CodeEntity)
    (h0 : assocLookup e.output_map name = none)
    (h1 : e.add_output_variable name n1 = Except.ok e1) :
    assocLookup e1.output_map name =
      some (ReferenceAssign (Variable name n1.get_precision) n1) ∧
    e1.add_output_variable name n2 =
      Except.error ("pre-existing name " ++ name ++ " in output_map") ∧
    e1.add_output_signal name n2 =
      Except.error ("pre-existing name " ++ name ++ " in output_map") := by
  unfold CodeEntity.add_output_variable at h1
  rw [h0] at h1
  simp at h1
  subst h1
  refine ⟨assocLookup_assocSet_self _ _ _, ?_, ?_⟩
  · unfold CodeEntity.add_output_variable
    simp [assocLookup_assocSet_self]
  · unfold CodeEntity.add_output_signal
    simp [assocLookup_assocSet_self]

/-- C3 witness: concrete duplicate registration of the output s. -/
theorem add_output_duplicate_name_fatal_witness :
    assocLookup (CodeEntity.init "ent").output_map "s" = none ∧
    (CodeEntity.init "ent").add_output_variable "s"
        (Signal "v1" (some (MLFormat.named "F32"))) =
      Except.ok outputWitnessEntity ∧
    (assocLookup outputWitnessEntity.output_map "s" =
      some (ReferenceAssign
        (Variable "s" (Signal "v1" (some (MLFormat.named "F32"))).get_precision)
        (Signal "v1" (some (MLFormat.named "F32")))) ∧
    outputWitnessEntity.add_output_variable "s"
        (Signal "v2" (some (MLFormat.named "F32"))) =
      Except.error ("pre-existing name " ++ "s" ++ " in output_map") ∧
    outputWitnessEntity.add_output_signal "s"
        (Signal "v2" (some (MLFormat.named "F32"))) =
      Except.error ("pre-existing name " ++ "s" ++ " in output_map")) :=
  ⟨rfl, rfl,
    add_output_duplicate_name_fatal (CodeEntity.init "ent") "s"
      (Signal "v1" (some (MLFormat.named "F32")))
      (Signal "v2" (some (MLFormat.named "F32"))) outputWitnessEntity rfl rfl⟩

/-- C10: registering a second input under an already-used name does not
fail: the new node is appended to arg_list, so the rendered input port
lines contain two lines with the same name, while the arg_map binding is
silently overwritten, so get_input_by_tag returns the newer node
(for add_input_variable and add_input_signal alike). -/
theorem add_input_duplicate_name_overwrites (e : CodeEntity) (name : String)
    (t1 t2 : MLFormat) (L : List String)
    (h : e.input_port_lines = Except.ok L) :
    ((e.add_input_variable name t1).2.add_input_variable name t2).2.arg_list
      = e.arg_list ++ [Variable name (some t1), Variable name (some t2)] ∧
    ((e.add_input_variable name t1).2.add_input_variable name t2).2.get_input_by_tag
        (some name) = some (Variable name (some t2)) ∧
    ((e.add_input_variable name t1).2.add_input_signal name t2).2.get_input_by_tag
        (some name) = some (Signal name (some t2)) ∧
    ((e.add_input_variable name t1).2.add_input_variable name t2).2.input_port_lines
      = Except.ok (L ++ [name ++ " : in " ++ t1.get_code_name,
                         name ++ " : in " ++ t2.get_code_name]) := by
  refine ⟨?_, ?_, ?_, ?_⟩
  · simp [CodeEntity.add_input_variable]
  · simp [CodeEntity.add_input_variable, CodeEntity.get_input_by_tag,
      assocLookup_assocSet_self]
  · simp [CodeEntity.add_input_variable, CodeEntity.add_input_signal,
      CodeEntity.get_input_by_tag, assocLookup_assocSet_self]
  · unfold CodeEntity.input_port_lines at h ⊢
    simp only [CodeEntity.add_input_variable]
    rw [List.append_assoc, mapME_append, h]
    rfl

/-- C10 witness: the input a registered twice on the empty entity. -/
theorem add_input_duplicate_name_overwrites_witness :
    fooEntity.input_port_lines = Except.ok [] ∧
    ((fooEntity.add_input_variable "a" (MLFormat.named "F32")).2.add_input_variable
        "a" (MLFormat.named "F64")).2.get_input_by_tag (some "a")
      = some (Variable "a" (some (MLFormat.named "F64"))) ∧
    ((fooEntity.add_input_variable "a" (MLFormat.named "F32")).2.add_input_variable
        "a" (MLFormat.named "F64")).2.input_port_lines
      = Except.ok ["a : in F32", "a : in F64"] := by
  have t := add_input_duplicate_name_overwrites fooEntity "a"
    (MLFormat.named "F32") (MLFormat.named "F64") [] rfl
  exact ⟨rfl, t.2.1, t.2.2.2⟩

/-- C1 counterexample: a Rewrite template whose modifier returns nothing
and which has no fallback does not fail with RewriteChainExhausted; the
source falls into the else branch and hands the missing replacement (None)
to code_generator.generate_expr, which fails by attribute access on None,
an error distinct from RewriteChainExhausted. -/
theorem rewrite_no_backup_not_exhausted_counterexample :
    (CGOperator.complexOp (fun _ => none) none).generate_expr
        stubBaseGen pyEngine sampleNode []
      = GenResult.error (GenError.attributeError "NoneType object has no attribute") ∧
    GenResult.error (GenError.attributeError "NoneType object has no attribute")
      ≠ GenResult.error GenError.RewriteChainExhausted :=
  ⟨rfl, by decide⟩

/-- C1 amended: when the modifier returns no replacement and no fallback
operator is configured, generate_expr neither raises its own error nor
skips the node: its outcome is exactly the outcome of
code_generator.generate_expr applied to the absent (None) replacement. -/
theorem rewrite_no_backup_calls_engine_with_none
    (optree_modifier : Node → Option Node)
    (baseGen : String → Nat → Node → List Node → GenResult)
    (engine : Option Node → GenResult) (optree : Node) (arg_tuple : List Node)
    (h : optree_modifier optree = none) :
    (CGOperator.complexOp optree_modifier none).generate_expr
        baseGen engine optree arg_tuple = engine none := by
  rw [CGOperator.generate_expr, h]
  exact fun t _ hc => Option.noConfusion hc

/-- C1 witness: concrete instance of the amended statement. -/
theorem rewrite_no_backup_calls_engine_with_none_witness :
    (fun (_ : Node) => (none : Option Node)) sampleNode = none ∧
    (CGOperator.complexOp (fun _ => none) none).generate_expr
        stubBaseGen pyEngine sampleNode [] = pyEngine none :=
  ⟨rfl, rewrite_no_backup_calls_engine_with_none
    (fun _ => none) stubBaseGen pyEngine sampleNode [] rfl⟩

/-- C4: when the modifier returns no replacement and a backup operator is
configured, generate_expr delegates to the generate_expr of that backup
operator applied to the original, un-rewritten optree and the original
argument tuple, without going through the resolving engine. -/
theorem rewrite_backup_applies_to_original_node
    (optree_modifier : Node → Option Node) (backup : CGOperator)
    (baseGen : String → Nat → Node → List Node → GenResult)
    (engine : Option Node → GenResult) (optree : Node) (arg_tuple : List Node)
    (h : optree_modifier optree = none) :
    (CGOperator.complexOp optree_modifier (some backup)).generate_expr
        baseGen engine optree arg_tuple
      = backup.generate_expr baseGen engine optree arg_tuple := by
  rw [CGOperator.generate_expr]
  exact h

/-- C4 witness: with an inline-template backup the call renders through the
backup on the original node. -/
theorem rewrite_backup_applies_to_original_node_witness :
    (fun (_ : Node) => (none : Option Node)) sampleNode = none ∧
    (CGOperator.complexOp (fun _ => none)
        (some (CGOperator.asmInline "TPL" 1))).generate_expr
        stubBaseGen pyEngine sampleNode [sampleNode]
      = GenResult.ref "base" :=
  ⟨rfl, (rewrite_backup_applies_to_original_node (fun _ => none)
    (CGOperator.asmInline "TPL" 1) stubBaseGen pyEngine sampleNode
    [sampleNode] rfl).trans rfl⟩

/-- C9: under the rv64 C table a NearestInteger node of format binary64
with one binary64 operand resolves to the Rewrite operator lowering
through int64, and the modifier of that operator rewrites any such node
into two nested conversions of its first operand: first to int64, then to
binary64. -/
theorem rv64_nearest_integer_binary64_lowering (x : Node)
    (hx : x.get_precision = some MLFormat.ML_Binary64) :
    resolve rv64CCodeGenTable
        (Node.mk OpKind.NearestInteger none none (some MLFormat.ML_Binary64) [x])
      = some (CGOperator.complexOp
          (lowerConversion MLFormat.ML_Int64 MLFormat.ML_Binary64) none) ∧
    lowerConversion MLFormat.ML_Int64 MLFormat.ML_Binary64
        (Node.mk OpKind.NearestInteger none none (some MLFormat.ML_Binary64) [x])
      = some (Conversion (Conversion x MLFormat.ML_Int64) MLFormat.ML_Binary64) := by
  cases x with
  | mk k t s p i =>
    simp only [Node.get_precision] at hx
    subst hx
    exact ⟨rfl, rfl⟩

/-- C9 witness: concrete binary64 operand. -/
theorem rv64_nearest_integer_binary64_lowering_witness :
    (Variable "x" (some MLFormat.ML_Binary64)).get_precision
      = some MLFormat.ML_Binary64 ∧
    (resolve rv64CCodeGenTable
        (Node.mk OpKind.NearestInteger none none (some MLFormat.ML_Binary64)
          [Variable "x" (some MLFormat.ML_Binary64)])
      = some (CGOperator.complexOp
          (lowerConversion MLFormat.ML_Int64 MLFormat.ML_Binary64) none) ∧
    lowerConversion MLFormat.ML_Int64 MLFormat.ML_Binary64
        (Node.mk OpKind.NearestInteger none none (some MLFormat.ML_Binary64)
          [Variable "x" (some MLFormat.ML_Binary64)])
      = some (Conversion
          (Conversion (Variable "x" (some MLFormat.ML_Binary64)) MLFormat.ML_Int64)
          MLFormat.ML_Binary64)) :=
  ⟨rfl, rv64_nearest_integer_binary64_lowering
    (Variable "x" (some MLFormat.ML_Binary64)) rfl⟩

/-- C5 counterexample: get_definition on the empty entity with a body
generator that emits one assignment produces text that does not end with
the end architecture trailer; no trailer is appended by get_definition. -/
theorem get_definition_no_trailer_counterexample :
    (fooEntity.get_definition bodyGen).map CodeObject.text
      = Except.ok "entity foo is \n\nend foo;\n\nsig_o <= sig_i;\n" ∧
    strEndsWith "entity foo is \n\nend foo;\n\nsig_o <= sig_i;\n"
        "end architecture;\n" = false :=
  ⟨rfl, by decide⟩

/-- C5 amended: get_definition opens a fresh code object, registers the
three ieee headers, emits the entity declaration, generates the body in a
nested scope and closes it; the produced text is exactly the declaration
followed by the body output, with no end architecture trailer (that
trailer is emitted by add_definition instead). -/
theorem get_definition_structure (e : CodeEntity)
    (gen : CodeObject → Node → CodeObject) (B decl : String)
    (h1 : e.get_declaration = Except.ok decl)
    (h2 : ∀ co : CodeObject, gen co e.get_scheme = co.emit B) :
    e.get_definition gen = Except.ok
      { text := decl ++ B,
        headers := ["ieee.std_logic_1164.all", "ieee.std_logic_unsigned.all",
                    "ieee.numeric_std.all"],
        level := 0 } := by
  unfold CodeEntity.get_definition
  simp only [h1, Bind.bind, Except.bind, h2]
  rfl

/-- C5 witness: concrete instance of the amended statement. -/
theorem get_definition_structure_witness :
    fooEntity.get_declaration = Except.ok "entity foo is \n\nend foo;\n\n" ∧
    (∀ co : CodeObject, bodyGen co fooEntity.get_scheme
      = co.emit "sig_o <= sig_i;\n") ∧
    fooEntity.get_definition bodyGen = Except.ok
      { text := "entity foo is \n\nend foo;\n\n" ++ "sig_o <= sig_i;\n",
        headers := ["ieee.std_logic_1164.all", "ieee.std_logic_unsigned.all",
                    "ieee.numeric_std.all"],
        level := 0 } :=
  ⟨rfl, fun _ => rfl,
    get_definition_structure fooEntity bodyGen "sig_o <= sig_i;\n"
      "entity foo is \n\nend foo;\n\n" rfl (fun _ => rfl)⟩

/-- C6 counterexample: add_definition into an empty caller code object
emits the entity declaration itself (the produced text starts with it),
so the declaration emission is not left to the caller context. -/
theorem add_definition_emits_declaration_counterexample :
    (fooEntity.add_definition bodyGen NestedCode_init).map CodeObject.text
      = Except.ok
        "entity foo is \n\nend foo;\n\narchitecture rtl of foo is\nsig_o <= sig_i;\nend architecture;\n" ∧
    strStartsWith
        "entity foo is \n\nend foo;\n\narchitecture rtl of foo is\nsig_o <= sig_i;\nend architecture;\n"
        "entity foo is " = true :=
  ⟨rfl, by decide⟩

/-- C6 amended: add_definition performs the same body generation as
get_definition but writes into the caller-supplied code object; it still
emits the entity declaration itself, followed by an architecture header,
the body and the end architecture trailer, and leaves the headers and the
nesting level of the caller object unchanged. -/
theorem add_definition_structure (e : CodeEntity)
    (gen : CodeObject → Node → CodeObject) (B decl : String) (co : CodeObject)
    (h1 : e.get_declaration = Except.ok decl)
    (h2 : ∀ c : CodeObject, gen c e.get_scheme = c.emit B) :
    e.add_definition gen co = Except.ok
      { text := co.text ++ decl ++ ("architecture rtl of " ++ e.name ++ " is\n")
          ++ B ++ "end architecture;\n",
        headers := co.headers, level := co.level } := by
  unfold CodeEntity.add_definition
  simp only [h1, Bind.bind, Except.bind, h2]
  rfl

/-- C6 witness: concrete instance of the amended statement on a caller
object with pre-existing content. -/
theorem add_definition_structure_witness :
    fooEntity.get_declaration = Except.ok "entity foo is \n\nend foo;\n\n" ∧
    (∀ c : CodeObject, bodyGen c fooEntity.get_scheme
      = c.emit "sig_o <= sig_i;\n") ∧
    fooEntity.add_definition bodyGen callerCo = Except.ok
      { text := "PRE\n" ++ "entity foo is \n\nend foo;\n\n" ++
          ("architecture rtl of " ++ "foo" ++ " is\n") ++
          "sig_o <= sig_i;\n" ++ "end architecture;\n",
        headers := ["work.pkg.all"], level := 2 } :=
  ⟨rfl, fun _ => rfl,
    add_definition_structure fooEntity bodyGen "sig_o <= sig_i;\n"
      "entity foo is \n\nend foo;\n\n" callerCo rfl (fun _ => rfl)⟩

theorem add_output_variable_preserves (e : CodeEntity) (name : String)
    (v : Node) (e2 : CodeEntity)
    (h : e.add_output_variable name v = Except.ok e2) :
    e2.current_stage = e.current_stage ∧
    e2.init_stage_default = e.init_stage_default := by
  unfold CodeEntity.add_output_variable at h
  by_cases hd : (assocLookup e.output_map name).isSome
  · rw [if_pos hd] at h
    simp at h
  · rw [if_neg hd] at h
    injection h with h2
    subst h2
    exact ⟨rfl, rfl⟩

theorem add_output_signal_preserves (e : CodeEntity) (name : String)
    (v : Node) (e2 : CodeEntity)
    (h : e.add_output_signal name v = Except.ok e2) :
    e2.current_stage = e.current_stage ∧
    e2.init_stage_default = e.init_stage_default := by
  unfold CodeEntity.add_output_signal at h
  by_cases hd : (assocLookup e.output_map name).isSome
  · rw [if_pos hd] at h
    simp at h
  · rw [if_neg hd] at h
    injection h with h2
    subst h2
    exact ⟨rfl, rfl⟩

theorem countStages_append (l1 l2 : List ConstructionOp) :
    countStages (l1 ++ l2) = countStages l1 + countStages l2 := by
  induction l1 with
  | nil => simp [countStages]
  | cons op rest ih =>
    cases op <;> simp [countStages, ih]
    omega

theorem tagsSpec_cons (op : ConstructionOp) (rest : List ConstructionOp)
    (st : Nat) :
    tagsSpec (op :: rest) st
      = tagsSpec [op] st ++ tagsSpec rest (st + countStages [op]) := by
  cases op <;> simp [tagsSpec, countStages]

theorem applyOp_current_stage (s : EntityTrace) (op : ConstructionOp) :
    (applyOp s op).entity.current_stage
      = s.entity.current_stage + countStages [op] := by
  cases op with
  | addInputVariable name t =>
    simp [applyOp, CodeEntity.add_input_variable, countStages]
  | addInputSignal name t =>
    simp [applyOp, CodeEntity.add_input_signal, countStages]
  | addOutputVariable name v =>
    simp only [applyOp]
    cases hres : s.entity.add_output_variable name v with
    | ok e2 =>
      rw [(add_output_variable_preserves s.entity name v e2 hres).1]
      simp [countStages]
    | error msg => simp [countStages]
  | addOutputSignal name v =>
    simp only [applyOp]
    cases hres : s.entity.add_output_signal name v with
    | ok e2 =>
      rw [(add_output_signal_preserves s.entity name v e2 hres).1]
      simp [countStages]
    | error msg => simp [countStages]
  | addProcess p => simp [applyOp, CodeEntity.add_process, countStages]
  | startNewStage =>
    simp [applyOp, CodeEntity.start_new_stage, CodeEntity.set_current_stage,
      countStages]

theorem applyOp_default (s : EntityTrace)
    (h : s.entity.init_stage_default = s.entity.current_stage)
    (op : ConstructionOp) :
    (applyOp s op).entity.init_stage_default
      = (applyOp s op).entity.current_stage := by
  cases op with
  | addInputVariable name t =>
    simp [applyOp, CodeEntity.add_input_variable, h]
  | addInputSignal name t =>
    simp [applyOp, CodeEntity.add_input_signal, h]
  | addOutputVariable name v =>
    simp only [applyOp]
    cases hres : s.entity.add_output_variable name v with
    | ok e2 =>
      obtain ⟨p1, p2⟩ := add_output_variable_preserves s.entity name v e2 hres
      simp [p1, p2, h]
    | error msg => simp [h]
  | addOutputSignal name v =>
    simp only [applyOp]
    cases hres : s.entity.add_output_signal name v with
    | ok e2 =>
      obtain ⟨p1, p2⟩ := add_output_signal_preserves s.entity name v e2 hres
      simp [p1, p2, h]
    | error msg => simp [h]
  | addProcess p => simp [applyOp, CodeEntity.add_process, h]
  | startNewStage =>
    simp [applyOp, CodeEntity.start_new_stage, CodeEntity.set_current_stage]

theorem applyOp_tags (s : EntityTrace)
    (h : s.entity.init_stage_default = s.entity.current_stage)
    (op : ConstructionOp) :
    (applyOp s op).createdTags
      = s.createdTags ++ tagsSpec [op] s.entity.current_stage := by
  cases op <;> simp [applyOp, tagsSpec, h]

theorem foldl_applyOp_invariant (ops : List ConstructionOp) :
    ∀ s : EntityTrace, s.entity.init_stage_default = s.entity.current_stage →
    (List.foldl applyOp s ops).entity.current_stage
        = s.entity.current_stage + countStages ops ∧
    (List.foldl applyOp s ops).entity.init_stage_default
        = (List.foldl applyOp s ops).entity.current_stage ∧
    (List.foldl applyOp s ops).createdTags
        = s.createdTags ++ tagsSpec ops s.entity.current_stage := by
  induction ops with
  | nil =>
    intro s h
    exact ⟨by simp [countStages], h, by simp [tagsSpec]⟩
  | cons op rest ih =>
    intro s h
    have h1 := applyOp_current_stage s op
    have h2 := applyOp_default s h op
    have h3 := applyOp_tags s h op
    obtain ⟨ih1, ih2, ih3⟩ := ih (applyOp s op) h2
    refine ⟨?_, ih2, ?_⟩
    · rw [List.foldl_cons, ih1, h1]
      have hc := countStages_append [op] rest
      simp only [List.singleton_append] at hc
      omega
    · rw [List.foldl_cons, ih3, h3, h1, List.append_assoc, ← tagsSpec_cons]

/-- C8: the stage counter of a fresh entity is 0; along any construction
trace the counter equals the number of startNewStage operations performed,
start_new_stage strictly increments it by one, extending a trace never
decreases it, and every node created along the trace is tagged, through
the init_stage attribute default, with the stage that was active at its
creation. -/
theorem pipeline_stage_counter (name : String)
    (ops extra : List ConstructionOp) :
    (CodeEntity.init name).current_stage = 0 ∧
    (runOps name ops).entity.current_stage = countStages ops ∧
    ((runOps name ops).entity.start_new_stage).current_stage
      = (runOps name ops).entity.current_stage + 1 ∧
    (runOps name ops).entity.current_stage
      ≤ (runOps name (ops ++ extra)).entity.current_stage ∧
    (runOps name ops).createdTags = tagsSpec ops 0 := by
  have base : ({ entity := CodeEntity.init name, createdTags := [] } :
      EntityTrace).entity.init_stage_default
      = ({ entity := CodeEntity.init name, createdTags := [] } :
      EntityTrace).entity.current_stage := rfl
  obtain ⟨i1, i2, i3⟩ := foldl_applyOp_invariant ops _ base
  obtain ⟨j1, j2, j3⟩ := foldl_applyOp_invariant (ops ++ extra) _ base
  have hc := countStages_append ops extra
  refine ⟨rfl, ?_, ?_, ?_, ?_⟩
  · simpa [runOps, CodeEntity.init] using i1
  · simp [CodeEntity.start_new_stage, CodeEntity.set_current_stage]
  · have i1r : (runOps name ops).entity.current_stage
        = 0 + countStages ops := i1
    have j1r : (runOps name (ops ++ extra)).entity.current_stage
        = 0 + countStages (ops ++ extra) := j1
    omega
  · simpa [runOps, CodeEntity.init] using i3

end Metalibm
